import Mathlib

/-!
Verification development for the metrics aggregation and Pareto-frontier
pipeline of the ann-benchmarks export/plot scripts.

The embedding covers:
- the exporter main flow of data_export.py (per-dataset loop, the
  dataset-column assignment, the non-empty guard, and the csv.DictWriter
  behaviour of taking fieldnames from the first record, filling missing
  fields with an empty value and rejecting extra fields);
- the plotter main flow of plot.py (the emptiness check raising
  "Nothing to plot", the --algo grouping loop producing one comparison
  plot per foreign group, and the final unfiltered plot);
- the metrics engine and frontier reducer, which live in
  ann_benchmarks.plotting (not part of the two source files); these are
  modelled from the specification, as marked on each definition.
-/

/-- A cell of a record: either a string field (names, parameters) or a
numeric metric value.  Numeric values are modelled as rationals. -/
inductive Cell where
  | str : String → Cell
  | num : ℚ → Cell
deriving DecidableEq, Repr

/-- A flat record (a Python dict) as an association list from key to cell,
in insertion order. -/
abbrev Row := List (String × Cell)

/-- Lookup of a key in a row, first match wins (Python dict access). -/
def rowGet (r : Row) (k : String) : Option Cell :=
  List.lookup k r

/-- Assignment res[k] = v on a Python dict: overwrite in place when the key
exists, otherwise append the new key at the end (insertion order). -/
def setKey (k : String) (v : Cell) (r : Row) : Row :=
  if r.any (fun kv => kv.1 = k) then
    r.map (fun kv => if kv.1 = k then (k, v) else kv)
  else
    r ++ [(k, v)]

/-- The keys of a row, in order (Python dict .keys()). -/
def rowKeys (r : Row) : List String :=
  r.map Prod.fst

/-- The per-dataset results store seen by the exporter: for each known
dataset name, the sequence of MetricRecords computed for its stored runs
(compute_metrics_all_runs is 1:1 from run records to metric records). -/
abbrev Store := List (String × List Row)

/-- The rows accumulated by the exporter main loop of data_export.py:
for each dataset with a non-empty result list, every metric record is
emitted with res["dataset"] = dataset_name set on it. -/
def exportRows (store : Store) : List Row :=
  (store.map (fun dsr =>
    if dsr.2.isEmpty then []
    else dsr.2.map (setKey "dataset" (Cell.str dsr.1)))).flatten

/-- One output cell: some value, or none for an empty cell (the DictWriter
restval for a field missing from the row). -/
abbrev OutCell := Option Cell

/-- The csv.DictWriter.writerow behaviour: a row holding a key outside the
fieldnames raises ValueError; otherwise each field is written from the row,
missing fields as the empty restval. -/
def writeRow (fields : List String) (r : Row) : Except String (List OutCell) :=
  if r.all (fun kv => fields.contains kv.1) then
    Except.ok (fields.map (fun f => rowGet r f))
  else
    Except.error "dict contains fields not in fieldnames"

/-- Sequential writing of the body rows, stopping with the error of the
first rejected record. -/
def writeRowsAll (fields : List String) : List Row → Except String (List (List OutCell))
  | [] => Except.ok []
  | r :: rs =>
    match writeRow fields r with
    | Except.error e => Except.error e
    | Except.ok cells =>
      match writeRowsAll fields rs with
      | Except.error e => Except.error e
      | Except.ok rest => Except.ok (cells :: rest)

/-- The table-writing phase of data_export.py: fieldnames are the keys of
the FIRST accumulated record, then a header row and one body row per
record are written in order, stopping with an error as soon as a record
holds a field outside the fieldnames. -/
def writeTable (rows : List Row) : Except String (List String × List (List OutCell)) :=
  match rows with
  | [] => Except.error "no rows"
  | r0 :: _ =>
    match writeRowsAll (rowKeys r0) rows with
    | Except.error e => Except.error e
    | Except.ok body => Except.ok (rowKeys r0, body)

/-- The exporter main flow: accumulate rows over all datasets; when no row
was produced, no output file is created at all (the len(dfs) > 0 guard),
modelled as none. -/
def exportMain (store : Store) : Option (Except String (List String × List (List OutCell))) :=
  let rows := exportRows store
  if rows.isEmpty then none else some (writeTable rows)

/-- Deduplication keeping the FIRST occurrence of each element in order,
as iteration over a Python dict built by insertion does. -/
def firstDedup (l : List String) : List String :=
  (l.reverse.dedup).reverse

/-- The algorithm name field of a metric record. -/
def algoName (r : Row) : String :=
  match rowGet r "algorithm" with
  | some (Cell.str s) => s
  | _ => ""

/-- Modelled from the spec: compute_metrics of ann_benchmarks.plotting.utils
is not among the two source files; per the spec the plotter groups the
computed MetricRecords by algorithm, an algorithm appearing as a key
exactly when at least one of its records was computed. -/
def groupByAlgo (recs : List Row) : List (String × List Row) :=
  (firstDedup (recs.map algoName)).map
    (fun a => (a, recs.filter (fun r => algoName r = a)))

/-- The base prefix of an algorithm name: the part before the first dash
(algo.split("-")[0] in plot.py). -/
def algoBase (a : String) : String :=
  ((a.toList).takeWhile (fun c => c ≠ '-')).asString

/-- One create_plot invocation of plot.py: the combination it renders
(none for the unfiltered plot, some base for the comparison against that
group), the run data handed to it and the output file name. -/
structure PlotCall where
  combo : Option String
  data : List (String × List Row)
  fileName : String
deriving DecidableEq, Repr

/-- The sequence of create_plot invocations performed by the plotter main
flow of plot.py for one run: with an algorithm filter, one comparison plot
per group whose base differs from the filter's own group (args_group is
the base of the filtered algorithm when it is a known algorithm), each on
the runs restricted to the filtered algorithm plus that group; and in
every case the final unfiltered plot of all runs to the main output. -/
def plotterCalls (dsName : String) (algoFilter : Option String)
    (uniqueAlgos : List String) (runs : List (String × List Row))
    (outputdir mainOut : String) : List PlotCall :=
  (match algoFilter with
   | none => []
   | some a =>
     let bases := firstDedup (uniqueAlgos.map algoBase)
     let argsGroup : Option String :=
       if uniqueAlgos.contains a then some (algoBase a) else none
     (bases.filter (fun b => ¬ argsGroup = some b)).map (fun b =>
       let group := uniqueAlgos.filter (fun x => algoBase x = b)
       { combo := some b
         data := runs.filter (fun ar => ar.1 = a ∨ group.contains ar.1)
         fileName := outputdir ++ "/" ++ a ++ "-vs-" ++ b ++ "-" ++ dsName ++ ".png" }))
  ++ [{ combo := none, data := runs, fileName := mainOut }]

/-- The plotter main flow of plot.py after metric computation: when the
grouped run map is empty, Exception("Nothing to plot") is raised;
otherwise the create_plot invocations are performed. -/
def plotterMain (recs : List Row) (dsName : String) (algoFilter : Option String)
    (uniqueAlgos : List String) (outputdir mainOut : String) :
    Except String (List PlotCall) :=
  let runs := groupByAlgo recs
  if runs.isEmpty then Except.error "Nothing to plot"
  else Except.ok (plotterCalls dsName algoFilter uniqueAlgos runs outputdir mainOut)

/-- Modelled from the spec: the metrics engine (ann_benchmarks.plotting
.metrics) is not among the two source files.  One raw trial: for each
query, the distances of the neighbors the algorithm returned, in order. -/
structure RunRecord where
  algorithm : String
  runDists : List (List ℚ)
deriving DecidableEq, Repr

/-- Modelled from the spec: the ground truth for a dataset is the ordered
sequence of true nearest-neighbor distances per query. -/
structure GroundTruth where
  trueDists : List (List ℚ)
deriving DecidableEq, Repr

/-- Well-formed raw arrays: one distance sequence per query in both the
record and the ground truth. -/
def wellFormed (R : RunRecord) (G : GroundTruth) : Prop :=
  R.runDists.length = G.trueDists.length

instance (R : RunRecord) (G : GroundTruth) : Decidable (wellFormed R G) := by
  unfold wellFormed; infer_instance

/-- Modelled from the spec: the k-th true distance of a query (the last of
the first k ground-truth distances, which are sorted ascending). -/
def kthTrueDist (k : ℕ) (trueD : List ℚ) : ℚ :=
  (trueD.take k).getLastD 0

/-- Modelled from the spec: a returned neighbor is counted as correct when
its distance is within eps of the k-th true distance, regardless of its
index. -/
def correctWithin (eps : ℚ) (k : ℕ) (trueD : List ℚ) (d : ℚ) : Bool :=
  decide (d ≤ kthTrueDist k trueD + eps)

/-- Modelled from the spec: the recall of one query is the fraction of the
first k returned neighbors counted as correct under the eps tolerance. -/
def knnQueryRecall (eps : ℚ) (k : ℕ) (trueD runD : List ℚ) : ℚ :=
  (((runD.take k).countP (correctWithin eps k trueD) : ℚ)) / (k : ℚ)

/-- Modelled from the spec: the per-query recalls of a run record, one for
each (ground truth, returned distances) query pair. -/
def perQuery (eps : ℚ) (k : ℕ) (R : RunRecord) (G : GroundTruth) : List ℚ :=
  (G.trueDists.zip R.runDists).map (fun p => knnQueryRecall eps k p.1 p.2)

/-- Modelled from the spec: k-nn recall of a run record is the per-query
recall averaged over the queries. -/
def knnRecall (eps : ℚ) (k : ℕ) (R : RunRecord) (G : GroundTruth) : ℚ :=
  (perQuery eps k R G).sum / ((perQuery eps k R G).length : ℚ)

/-- Modelled from the spec: computeMetric dispatches on a registry of named
metrics; the k-nn entry computes the eps-tolerant recall. -/
def computeMetric (name : String) (eps : ℚ) (k : ℕ) (R : RunRecord) (G : GroundTruth) :
    Option ℚ :=
  if name = "k-nn" then some (knnRecall eps k R G) else none

/-- A projected point of one metric record on the two chosen axes. -/
structure PPoint where
  x : ℚ
  y : ℚ
deriving DecidableEq, Repr

/-- Orientation of an axis: the goodness of a value is the value itself
when higher is better, its negation when lower is better. -/
def goodVal (higherBetter : Bool) (v : ℚ) : ℚ :=
  if higherBetter then v else -v

/-- Goodness of a point on the x axis. -/
def gx (hbx : Bool) (p : PPoint) : ℚ := goodVal hbx p.x

/-- Goodness of a point on the y axis. -/
def gy (hby : Bool) (p : PPoint) : ℚ := goodVal hby p.y

/-- Modelled from the spec: the sort order of the frontier sweep, from the
best x-goodness down, ties on x broken towards the better y. -/
def pOrder (hbx hby : Bool) (p q : PPoint) : Prop :=
  gx hbx q < gx hbx p ∨ (gx hbx p = gx hbx q ∧ gy hby q ≤ gy hby p)

instance (hbx hby : Bool) : DecidableRel (pOrder hbx hby) := fun _ _ => by
  unfold pOrder; infer_instance

/-- Whether a candidate y-goodness strictly improves on the best retained
so far (none when nothing is retained yet). -/
def improvesY (best : Option ℚ) (yv : ℚ) : Bool :=
  match best with
  | none => true
  | some b => decide (b < yv)

/-- Modelled from the spec: the Pareto sweep over the sorted candidates,
retaining a point exactly when its y-goodness strictly improves on the
best retained so far. -/
def sweep (hby : Bool) : List PPoint → Option ℚ → List PPoint
  | [], _ => []
  | p :: rest, best =>
    if improvesY best (gy hby p) then p :: sweep hby rest (some (gy hby p))
    else sweep hby rest best

/-- Extraction of a numeric cell. -/
def cellNum : Option Cell → Option ℚ
  | some (Cell.num q) => some q
  | _ => none

/-- Modelled from the spec: projection of metric records onto the chosen
(x, y) metric pair, dropping records missing either metric. -/
def project (xn yn : String) (recs : List Row) : List PPoint :=
  recs.filterMap (fun r =>
    match cellNum (rowGet r xn), cellNum (rowGet r yn) with
    | some xv, some yv => some { x := xv, y := yv }
    | _, _ => none)

/-- Modelled from the spec: create_pointset of ann_benchmarks.plotting
.utils is not among the two source files; per the spec the frontier
reducer projects the records, sorts the candidates and keeps the Pareto
sweep survivors. -/
def create_pointset (hbx hby : Bool) (xn yn : String) (recs : List Row) : List PPoint :=
  sweep hby (List.insertionSort (pOrder hbx hby) (project xn yn recs)) none

/-! Helper lemmas. -/

theorem lookup_overwrite (k : String) (v : Cell) :
    ∀ t : Row, t.any (fun kv => kv.1 = k) = true →
      List.lookup k (t.map (fun kv => if kv.1 = k then (k, v) else kv)) = some v := by
  intro t
  induction t with
  | nil => intro h; simp at h
  | cons kv t ih =>
    obtain ⟨k1, v1⟩ := kv
    intro h
    by_cases hk : k1 = k
    · subst hk
      simp
    · have h' : t.any (fun kv => kv.1 = k) = true := by simpa [hk] using h
      have hb : (k == k1) = false := beq_eq_false_iff_ne.mpr (fun hh => hk hh.symm)
      simp [hk, List.lookup_cons, hb, ih h']

theorem lookup_map_other (k k' : String) (v : Cell) (hne : k' ≠ k) :
    ∀ t : Row, List.lookup k' (t.map (fun kv => if kv.1 = k then (k, v) else kv)) =
      List.lookup k' t := by
  intro t
  induction t with
  | nil => simp
  | cons kv t ih =>
    obtain ⟨k1, v1⟩ := kv
    by_cases hk : k1 = k
    · subst hk
      have hb : (k' == k1) = false := beq_eq_false_iff_ne.mpr hne
      simp [List.lookup_cons, hb, ih]
    · by_cases hk' : k' = k1
      · subst hk'
        simp [hk]
      · have hb : (k' == k1) = false := beq_eq_false_iff_ne.mpr hk'
        simp [hk, List.lookup_cons, hb, ih]

theorem lookup_append_end (k : String) (v : Cell) (t : Row)
    (h : ∀ kv ∈ t, kv.1 ≠ k) : List.lookup k (t ++ [(k, v)]) = some v := by
  have hn : List.lookup k t = none :=
    List.lookup_eq_none_iff.mpr (fun p hp => bne_iff_ne.mpr (fun hh => h p hp hh.symm))
  simp [List.lookup_append, hn]

theorem lookup_append_other (k k' : String) (v : Cell) (hne : k' ≠ k) (t : Row) :
    List.lookup k' (t ++ [(k, v)]) = List.lookup k' t := by
  have hb : (k' == k) = false := beq_eq_false_iff_ne.mpr hne
  simp [List.lookup_append, List.lookup_cons, hb]

theorem rowGet_setKey_same (k : String) (v : Cell) (r : Row) :
    rowGet (setKey k v r) k = some v := by
  unfold rowGet setKey
  by_cases h : r.any (fun kv => kv.1 = k)
  · simpa [h] using lookup_overwrite k v r h
  · have h' : ∀ kv ∈ r, kv.1 ≠ k := by
      intro kv hkv
      by_contra hc
      exact h (List.any_eq_true.mpr ⟨kv, hkv, by simpa using hc⟩)
    simpa [h] using lookup_append_end k v r h'

theorem rowGet_setKey_other (k k' : String) (v : Cell) (r : Row) (hne : k' ≠ k) :
    rowGet (setKey k v r) k' = rowGet r k' := by
  unfold rowGet setKey
  by_cases h : r.any (fun kv => kv.1 = k)
  · simpa [h] using lookup_map_other k k' v hne r
  · simpa [h] using lookup_append_other k k' v hne r

theorem exportRows_nil_of_all_empty :
    ∀ store : Store, (∀ p ∈ store, p.2 = []) → exportRows store = [] := by
  intro store
  induction store with
  | nil => intro _; simp [exportRows]
  | cons p t ih =>
    intro h
    have hp : p.2 = [] := h p (List.mem_cons_self p t)
    have ht := ih (fun q hq => h q (List.mem_cons_of_mem p hq))
    simp only [exportRows, List.map_cons, List.flatten_cons] at ht ⊢
    simp only [hp, List.isEmpty_nil, ite_true, List.nil_append]
    exact ht

theorem groups_nonempty (recs : List Row) : ∀ p ∈ groupByAlgo recs, p.2 ≠ [] := by
  intro p hp
  obtain ⟨a, ha, rfl⟩ := List.mem_map.mp hp
  have ha' : a ∈ recs.map algoName := by
    simpa [firstDedup, List.mem_reverse, List.mem_dedup] using ha
  obtain ⟨r, hr, hra⟩ := List.mem_map.mp ha'
  exact List.ne_nil_of_mem (List.mem_filter.mpr ⟨hr, by simp [hra]⟩)

theorem writeRowsAll_error (fields : List String) :
    ∀ (l : List Row) (r : Row), r ∈ l →
      writeRow fields r = Except.error "dict contains fields not in fieldnames" →
      ∃ e, writeRowsAll fields l = Except.error e := by
  intro l
  induction l with
  | nil => intro r hr; cases hr
  | cons a rs ih =>
    intro r hr hw
    rcases List.mem_cons.mp hr with hra | hrs
    · subst hra
      exact ⟨"dict contains fields not in fieldnames", by simp [writeRowsAll, hw]⟩
    · cases ha : writeRow fields a with
      | error e => exact ⟨e, by simp [writeRowsAll, ha]⟩
      | ok cells =>
        obtain ⟨e, he⟩ := ih r hrs hw
        exact ⟨e, by simp [writeRowsAll, ha, he]⟩

theorem writeRowsAll_ok (fields : List String) :
    ∀ l : List Row, (∀ r ∈ l, r.all (fun kv => fields.contains kv.1) = true) →
      writeRowsAll fields l = Except.ok (l.map (fun r => fields.map (fun f => rowGet r f))) := by
  intro l
  induction l with
  | nil => intro _; rfl
  | cons a rs ih =>
    intro h
    have ha : writeRow fields a = Except.ok (fields.map (fun f => rowGet a f)) := by
      unfold writeRow
      rw [if_pos (h a (List.mem_cons_self a rs))]
    simp [writeRowsAll, ha, ih (fun r hr => h r (List.mem_cons_of_mem a hr))]

/-- C3: a dataset with zero stored runs contributes zero rows to the
output table and does not raise; the exporter's accumulated rows and the
whole export are the same as if the dataset were absent, so all other
datasets are still processed. -/
theorem export_empty_dataset_omitted (pre post : Store) (ds : String) :
    exportRows (pre ++ (ds, ([] : List Row)) :: post) = exportRows (pre ++ post) ∧
    exportMain (pre ++ (ds, ([] : List Row)) :: post) = exportMain (pre ++ post) := by
  have h : exportRows (pre ++ (ds, ([] : List Row)) :: post) = exportRows (pre ++ post) := by
    simp [exportRows, List.map_append, List.flatten_append]
  exact ⟨h, by simp only [exportMain, h]⟩

/-- C9: when every known dataset yields zero metric records, the exporter
creates no output file at all, not even an empty file with a header row. -/
theorem export_no_records_no_file (store : Store) (h : ∀ p ∈ store, p.2 = []) :
    exportMain store = none := by
  simp [exportMain, exportRows_nil_of_all_empty store h]

/-- Witness for export_no_records_no_file at a concrete two-dataset store. -/
theorem export_no_records_no_file_witness :
    exportMain [("glove-25-angular", []), ("sift-128-euclidean", [])] = none :=
  export_no_records_no_file [("glove-25-angular", []), ("sift-128-euclidean", [])] (by decide)

/-- C7: every metric record of every processed dataset is emitted as one
flat row holding the dataset name under the "dataset" key and, unchanged,
every field of the record (algorithm name, parameters and all computed
metric values). -/
theorem export_row_merges_dataset_fields (store : Store) (ds : String)
    (recs : List Row) (r : Row) (hmem : (ds, recs) ∈ store) (hr : r ∈ recs) :
    ∃ row ∈ exportRows store,
      rowGet row "dataset" = some (Cell.str ds) ∧
      ∀ k, k ≠ "dataset" → rowGet row k = rowGet r k := by
  refine ⟨setKey "dataset" (Cell.str ds) r, ?_, rowGet_setKey_same _ _ _,
    fun k hk => rowGet_setKey_other _ k _ r hk⟩
  unfold exportRows
  rw [List.mem_flatten]
  refine ⟨recs.map (setKey "dataset" (Cell.str ds)), ?_, List.mem_map_of_mem _ hr⟩
  apply List.mem_map.mpr
  refine ⟨(ds, recs), hmem, ?_⟩
  have hne : recs.isEmpty = false := by
    cases recs with
    | nil => cases hr
    | cons a t => rfl
  simp [hne]

/-- Witness for export_row_merges_dataset_fields at a concrete store. -/
theorem export_row_merges_dataset_fields_witness :
    ∃ row ∈ exportRows [("mnist-784-euclidean",
        [[("algorithm", Cell.str "bruteforce"), ("k-nn", Cell.num 1)]])],
      rowGet row "dataset" = some (Cell.str "mnist-784-euclidean") ∧
      ∀ k, k ≠ "dataset" →
        rowGet row k = rowGet [("algorithm", Cell.str "bruteforce"), ("k-nn", Cell.num 1)] k :=
  export_row_merges_dataset_fields _ "mnist-784-euclidean"
    [[("algorithm", Cell.str "bruteforce"), ("k-nn", Cell.num 1)]]
    [("algorithm", Cell.str "bruteforce"), ("k-nn", Cell.num 1)] (by decide) (by decide)

/-- C2: when the computed point set is empty for every algorithm, the
plotter terminates with the hard failure Exception("Nothing to plot")
instead of producing an empty plot. -/
theorem plot_nothing_to_plot_raises (recs : List Row) (dsName : String)
    (algoFilter : Option String) (uniqueAlgos : List String) (outputdir mainOut : String)
    (h : ∀ a : String, ((groupByAlgo recs).lookup a).getD [] = []) :
    plotterMain recs dsName algoFilter uniqueAlgos outputdir mainOut =
      Except.error "Nothing to plot" := by
  have hg : groupByAlgo recs = [] := by
    cases hge : groupByAlgo recs with
    | nil => rfl
    | cons p t =>
      obtain ⟨a, l⟩ := p
      have hl : l ≠ [] := by
        have hm : (a, l) ∈ groupByAlgo recs := by
          rw [hge]; exact List.mem_cons_self (a, l) t
        exact groups_nonempty recs (a, l) hm
      have hlook : ((groupByAlgo recs).lookup a).getD [] = l := by
        rw [hge]; simp
      exact absurd (hlook.symm.trans (h a)) hl
  simp [plotterMain, hg]

/-- Witness for plot_nothing_to_plot_raises on an empty record batch. -/
theorem plot_nothing_to_plot_raises_witness :
    plotterMain [] "glove-100-angular" none [] "plots/" "plots/glove-100-angular.png" =
      Except.error "Nothing to plot" :=
  plot_nothing_to_plot_raises [] "glove-100-angular" none [] "plots/"
    "plots/glove-100-angular.png" (fun _ => rfl)

/-- C8: a metric record holding a key absent from the first record's key
set makes the table writer fail, aborting the export instead of padding
the columns. -/
theorem export_extra_field_aborts (store : Store) (r0 : Row) (rest : List Row)
    (r : Row) (k : String) (hrows : exportRows store = r0 :: rest)
    (hr : r ∈ r0 :: rest) (hkr : k ∈ rowKeys r) (hk0 : k ∉ rowKeys r0) :
    ∃ e, exportMain store = some (Except.error e) := by
  have hwr : writeRow (rowKeys r0) r = Except.error "dict contains fields not in fieldnames" := by
    unfold writeRow
    rw [if_neg]
    intro hall
    obtain ⟨kv, hkv, hkvk⟩ := List.mem_map.mp hkr
    have hc := List.all_eq_true.mp hall kv hkv
    simp only [List.contains, List.elem_eq_mem, decide_eq_true_eq] at hc
    exact hk0 (hkvk ▸ hc)
  obtain ⟨e, he⟩ := writeRowsAll_error (rowKeys r0) (r0 :: rest) r hr hwr
  refine ⟨e, ?_⟩
  simp only [exportMain, hrows]
  simp [writeTable, he]

/-- Witness for export_extra_field_aborts at a concrete store whose second
record has a key the first record lacks. -/
theorem export_extra_field_aborts_witness :
    ∃ e, exportMain [("fashion-mnist-784-euclidean",
      [[("algorithm", Cell.str "annoy"), ("k-nn", Cell.num 9)],
       [("algorithm", Cell.str "faiss"), ("qps", Cell.num 120)]])] =
      some (Except.error e) :=
  export_extra_field_aborts _
    [("algorithm", Cell.str "annoy"), ("k-nn", Cell.num 9),
     ("dataset", Cell.str "fashion-mnist-784-euclidean")]
    [[("algorithm", Cell.str "faiss"), ("qps", Cell.num 120),
      ("dataset", Cell.str "fashion-mnist-784-euclidean")]]
    [("algorithm", Cell.str "faiss"), ("qps", Cell.num 120),
     ("dataset", Cell.str "fashion-mnist-784-euclidean")]
    "qps" (by decide) (by decide) (by decide) (by decide)

/-- C1 counterexample: at this concrete store the second metric record has
a metric ("dist_comps") absent from the first record, and the export
fails with the DictWriter error instead of writing a table whose column
set is the union of the keys across all processed records. -/
theorem export_union_columns_counterexample :
    exportMain [("nytimes-256-angular",
      [[("algorithm", Cell.str "hnswlib"), ("k-nn", Cell.num (1/2))],
       [("algorithm", Cell.str "scann"), ("dist_comps", Cell.num 42)]])] =
      some (Except.error "dict contains fields not in fieldnames") := by
  rfl

/-- C1 as amended: the output table's column set is the key set of the
FIRST processed record (not the union over all records); a metric missing
from a later record, among those columns, is written as an empty cell and
causes no failure. -/
theorem export_columns_from_first_record (store : Store) (r0 : Row) (rest : List Row)
    (hrows : exportRows store = r0 :: rest)
    (hsub : ∀ r ∈ r0 :: rest, ∀ kv ∈ r, kv.1 ∈ rowKeys r0) :
    exportMain store = some (Except.ok (rowKeys r0,
      (r0 :: rest).map (fun r => (rowKeys r0).map (fun f => rowGet r f)))) := by
  have hall : ∀ r ∈ r0 :: rest, r.all (fun kv => (rowKeys r0).contains kv.1) = true := by
    intro r hr
    apply List.all_eq_true.mpr
    intro kv hkv
    simp only [List.contains, List.elem_eq_mem, decide_eq_true_eq]
    exact hsub r hr kv hkv
  have hw := writeRowsAll_ok (rowKeys r0) (r0 :: rest) hall
  simp only [exportMain, hrows]
  simp [writeTable, hw]

/-- Witness for export_columns_from_first_record at a concrete store whose
second record lacks the qps metric: the export succeeds, the header is the
first record's keys, and the missing metric becomes an empty cell. -/
theorem export_columns_from_first_record_witness :
    exportMain [("deep-image-96-angular",
      [[("algorithm", Cell.str "annoy"), ("k-nn", Cell.num 3), ("qps", Cell.num 100)],
       [("algorithm", Cell.str "annoy"), ("k-nn", Cell.num 4)]])] =
      some (Except.ok (rowKeys [("algorithm", Cell.str "annoy"), ("k-nn", Cell.num 3),
          ("qps", Cell.num 100), ("dataset", Cell.str "deep-image-96-angular")],
        ([[("algorithm", Cell.str "annoy"), ("k-nn", Cell.num 3),
           ("qps", Cell.num 100), ("dataset", Cell.str "deep-image-96-angular")],
          [("algorithm", Cell.str "annoy"), ("k-nn", Cell.num 4),
           ("dataset", Cell.str "deep-image-96-angular")]]).map (fun r =>
          (rowKeys [("algorithm", Cell.str "annoy"), ("k-nn", Cell.num 3),
            ("qps", Cell.num 100), ("dataset", Cell.str "deep-image-96-angular")]).map
            (fun f => rowGet r f)))) :=
  export_columns_from_first_record _
    [("algorithm", Cell.str "annoy"), ("k-nn", Cell.num 3),
     ("qps", Cell.num 100), ("dataset", Cell.str "deep-image-96-angular")]
    [[("algorithm", Cell.str "annoy"), ("k-nn", Cell.num 4),
      ("dataset", Cell.str "deep-image-96-angular")]]
    (by decide) (by decide)

theorem firstDedup_nodup (l : List String) : (firstDedup l).Nodup := by
  unfold firstDedup
  exact List.nodup_reverse.mpr (List.nodup_dedup _)

theorem string_append_left_inj (p : String) : Function.Injective (fun s => p ++ s) := by
  intro s1 s2 h
  have hd : p.data ++ s1.data = p.data ++ s2.data := by
    simpa [String.data_append] using congrArg String.data h
  cases s1
  cases s2
  exact congrArg String.mk (List.append_cancel_left hd)

theorem string_append_right_inj (t : String) : Function.Injective (fun s => s ++ t) := by
  intro s1 s2 h
  have hd : s1.data ++ t.data = s2.data ++ t.data := by
    simpa [String.data_append] using congrArg String.data h
  cases s1
  cases s2
  exact congrArg String.mk (List.append_cancel_right hd)

/-- C10: with an algorithm filter supplied, the full unfiltered plot over
every algorithm's runs is still rendered to the main output path, as the
last plot after all the per-group comparison plots. -/
theorem plot_unfiltered_always_rendered (dsName a : String) (uniqueAlgos : List String)
    (runs : List (String × List Row)) (outputdir mainOut : String) :
    ∃ groupCalls,
      plotterCalls dsName (some a) uniqueAlgos runs outputdir mainOut =
        groupCalls ++ [{ combo := none, data := runs, fileName := mainOut }] ∧
      ∀ c ∈ groupCalls, c.combo ≠ none := by
  refine ⟨_, rfl, ?_⟩
  intro c hc
  obtain ⟨b, hb, rfl⟩ := List.mem_map.mp hc
  simp

theorem plotCalls_shape_nodup (bases : List String) (hnd : bases.Nodup)
    (mk : String → PlotCall) (hcombo : ∀ b, (mk b).combo = some b)
    (hfn : Function.Injective (fun b => (mk b).fileName))
    (final : PlotCall) (hfinal : final.combo = none) :
    ((bases.map mk ++ [final]).map PlotCall.combo).Nodup ∧
    (((bases.map mk ++ [final]).filter (fun c => c.combo.isSome)).map PlotCall.fileName).Nodup := by
  constructor
  · rw [List.map_append, List.map_map]
    apply List.Nodup.append
    · have hmc : bases.map (PlotCall.combo ∘ mk) = bases.map some :=
        List.map_congr_left (fun b _ => hcombo b)
      rw [hmc]
      exact hnd.map (Option.some_injective _)
    · simp
    · intro x hx hy
      simp only [List.map_cons, List.map_nil, List.mem_singleton, hfinal] at hy
      subst hy
      obtain ⟨b, _, hbx⟩ := List.mem_map.mp hx
      rw [Function.comp_apply, hcombo b] at hbx
      cases hbx
  · rw [List.filter_append]
    have h1 : (bases.map mk).filter (fun c => c.combo.isSome) = bases.map mk := by
      apply List.filter_eq_self.mpr
      intro c hc
      obtain ⟨b, _, rfl⟩ := List.mem_map.mp hc
      simp [hcombo b]
    have h2 : ([final] : List PlotCall).filter (fun c => c.combo.isSome) = [] := by
      simp [hfinal]
    rw [h1, h2, List.append_nil, List.map_map]
    exact hnd.map hfn

/-- C5: within one plotter invocation the rendered combinations are all
distinct (the unfiltered one, plus one per foreign group base), and the
comparison plots all go to pairwise distinct files, so exactly one output
image is produced per (dataset, x-metric, y-metric, filter) combination. -/
theorem plot_one_file_per_combination (dsName : String) (algoFilter : Option String)
    (uniqueAlgos : List String) (runs : List (String × List Row)) (outputdir mainOut : String) :
    ((plotterCalls dsName algoFilter uniqueAlgos runs outputdir mainOut).map PlotCall.combo).Nodup ∧
    (((plotterCalls dsName algoFilter uniqueAlgos runs outputdir mainOut).filter
        (fun c => c.combo.isSome)).map PlotCall.fileName).Nodup := by
  cases algoFilter with
  | none => exact ⟨by simp [plotterCalls], by simp [plotterCalls]⟩
  | some a =>
    have hinj : Function.Injective
        (fun b => outputdir ++ "/" ++ a ++ "-vs-" ++ b ++ "-" ++ dsName ++ ".png") := by
      intro b1 b2 h
      have h1 := string_append_right_inj ".png" h
      have h2 := string_append_right_inj dsName h1
      have h3 := string_append_right_inj "-" h2
      exact string_append_left_inj (outputdir ++ "/" ++ a ++ "-vs-") h3
    have hcalls : plotterCalls dsName (some a) uniqueAlgos runs outputdir mainOut =
        ((firstDedup (uniqueAlgos.map algoBase)).filter
          (fun b => ¬ (if uniqueAlgos.contains a then some (algoBase a) else none) = some b)).map
          (fun b => { combo := some b
                      data := runs.filter (fun ar => ar.1 = a ∨
                        (uniqueAlgos.filter (fun x => algoBase x = b)).contains ar.1)
                      fileName := outputdir ++ "/" ++ a ++ "-vs-" ++ b ++ "-" ++ dsName ++ ".png" }) ++
        [{ combo := none, data := runs, fileName := mainOut }] := rfl
    rw [hcalls]
    exact plotCalls_shape_nodup _ ((firstDedup_nodup _).filter _) _ (fun b => rfl) hinj _ rfl

instance (hbx hby : Bool) : IsTotal PPoint (pOrder hbx hby) := by
  refine ⟨fun p q => ?_⟩
  unfold pOrder
  rcases lt_trichotomy (gx hbx p) (gx hbx q) with h | h | h
  · exact Or.inr (Or.inl h)
  · rcases le_total (gy hby q) (gy hby p) with hy | hy
    · exact Or.inl (Or.inr ⟨h, hy⟩)
    · exact Or.inr (Or.inr ⟨h.symm, hy⟩)
  · exact Or.inl (Or.inl h)

instance (hbx hby : Bool) : IsTrans PPoint (pOrder hbx hby) := by
  refine ⟨fun a b c hab hbc => ?_⟩
  unfold pOrder at hab hbc ⊢
  rcases hab with hab | ⟨haeq, hay⟩
  · rcases hbc with hbc | ⟨hbeq, hcy⟩
    · exact Or.inl (lt_trans hbc hab)
    · exact Or.inl (hbeq ▸ hab)
  · rcases hbc with hbc | ⟨hbeq, hcy⟩
    · exact Or.inl (by rw [haeq]; exact hbc)
    · exact Or.inr ⟨haeq.trans hbeq, le_trans hcy hay⟩

theorem sweep_subset (hby : Bool) :
    ∀ (l : List PPoint) (best : Option ℚ) (p : PPoint), p ∈ sweep hby l best → p ∈ l := by
  intro l
  induction l with
  | nil => intro best p hp; cases hp
  | cons q rest ih =>
    intro best p hp
    unfold sweep at hp
    by_cases hq : improvesY best (gy hby q) = true
    · rw [if_pos hq] at hp
      rcases List.mem_cons.mp hp with h | h
      · exact h ▸ List.mem_cons_self q rest
      · exact List.mem_cons_of_mem q (ih _ p h)
    · rw [if_neg hq] at hp
      exact List.mem_cons_of_mem q (ih best p hp)

theorem sweep_gt_best (hby : Bool) :
    ∀ (l : List PPoint) (b : ℚ) (p : PPoint), p ∈ sweep hby l (some b) → b < gy hby p := by
  intro l
  induction l with
  | nil => intro b p hp; cases hp
  | cons q rest ih =>
    intro b p hp
    unfold sweep at hp
    by_cases hq : improvesY (some b) (gy hby q) = true
    · rw [if_pos hq] at hp
      have hbq : b < gy hby q := by simpa [improvesY] using hq
      rcases List.mem_cons.mp hp with h | h
      · exact h ▸ hbq
      · exact lt_trans hbq (ih (gy hby q) p h)
    · rw [if_neg hq] at hp
      exact ih b p hp

theorem sweep_pairwise (hbx hby : Bool) :
    ∀ (l : List PPoint) (best : Option ℚ), List.Sorted (pOrder hbx hby) l →
      List.Pairwise (fun p q => gx hbx q < gx hbx p ∧ gy hby p < gy hby q)
        (sweep hby l best) := by
  intro l
  induction l with
  | nil => intro best _; exact List.Pairwise.nil
  | cons p rest ih =>
    intro best hsorted
    rw [List.sorted_cons] at hsorted
    obtain ⟨hrel, hsrest⟩ := hsorted
    unfold sweep
    by_cases hq : improvesY best (gy hby p) = true
    · rw [if_pos hq]
      refine List.Pairwise.cons ?_ (ih (some (gy hby p)) hsrest)
      intro q hqmem
      have hqrest : q ∈ rest := sweep_subset hby rest _ q hqmem
      have hyq : gy hby p < gy hby q := sweep_gt_best hby rest (gy hby p) q hqmem
      rcases hrel q hqrest with hlt | ⟨heq, hle⟩
      · exact ⟨hlt, hyq⟩
      · exact absurd hyq (not_lt.mpr hle)
    · rw [if_neg hq]
      exact ih best hsrest

/-- C4: the frontier returned by the reducer is strictly monotonic in x
and monotonic (improving) in y with respect to each axis's orientation:
along the output sequence, the x-goodness strictly decreases from the
best-x end while the y-goodness strictly improves, so the plotted curve is
connected and non-self-intersecting. -/
theorem frontier_monotone (hbx hby : Bool) (xn yn : String) (recs : List Row) :
    List.Pairwise (fun p q => gx hbx q < gx hbx p ∧ gy hby p < gy hby q)
      (create_pointset hbx hby xn yn recs) :=
  sweep_pairwise hbx hby _ none (List.sorted_insertionSort _ _)

theorem knnQueryRecall_nonneg (eps : ℚ) (k : ℕ) (trueD runD : List ℚ) :
    0 ≤ knnQueryRecall eps k trueD runD := by
  unfold knnQueryRecall
  exact div_nonneg (Nat.cast_nonneg _) (Nat.cast_nonneg _)

theorem knnQueryRecall_le_one (eps : ℚ) (k : ℕ) (trueD runD : List ℚ) :
    knnQueryRecall eps k trueD runD ≤ 1 := by
  unfold knnQueryRecall
  rcases Nat.eq_zero_or_pos k with hk | hk
  · subst hk
    simp
  · rw [div_le_one (by exact_mod_cast hk)]
    have hc : (runD.take k).countP (correctWithin eps k trueD) ≤ k :=
      le_trans (List.countP_le_length _) (by rw [List.length_take]; exact min_le_left _ _)
    exact_mod_cast hc

theorem list_sum_le_length (l : List ℚ) (h : ∀ x ∈ l, x ≤ 1) : l.sum ≤ (l.length : ℚ) := by
  induction l with
  | nil => simp
  | cons a t ih =>
    have ha := h a (List.mem_cons_self a t)
    have ht := ih (fun x hx => h x (List.mem_cons_of_mem a hx))
    simp only [List.sum_cons, List.length_cons]
    push_cast
    linarith

theorem avg_le_one (l : List ℚ) (h : ∀ x ∈ l, x ≤ 1) : l.sum / (l.length : ℚ) ≤ 1 := by
  cases l with
  | nil => simp
  | cons a t =>
    rw [div_le_one (by exact_mod_cast Nat.succ_pos t.length)]
    exact list_sum_le_length _ h

/-- C6: for every run record with well-formed equal-length raw arrays and
any ground truth, the k-nn recall computed by the metrics engine lies in
the closed interval from 0 to 1; and a returned neighbor whose distance is
within eps of the k-th true distance is counted as correct — the counting
predicate looks only at distances, never at neighbor indices, so a
different index with a tying distance still counts. -/
theorem knn_recall_bounded_and_tie_tolerant :
    (∀ (R : RunRecord) (G : GroundTruth) (eps : ℚ) (k : ℕ), wellFormed R G →
      ∃ v, computeMetric "k-nn" eps k R G = some v ∧ 0 ≤ v ∧ v ≤ 1) ∧
    (∀ (eps : ℚ) (k : ℕ) (trueD runD : List ℚ) (d : ℚ), d ∈ runD.take k →
      d ≤ kthTrueDist k trueD + eps →
      0 < (runD.take k).countP (correctWithin eps k trueD)) := by
  constructor
  · intro R G eps k _
    refine ⟨knnRecall eps k R G, by simp [computeMetric], ?_, ?_⟩
    · unfold knnRecall
      refine div_nonneg (List.sum_nonneg ?_) (Nat.cast_nonneg _)
      intro x hx
      obtain ⟨p, _, rfl⟩ := List.mem_map.mp hx
      exact knnQueryRecall_nonneg eps k p.1 p.2
    · unfold knnRecall
      apply avg_le_one
      intro x hx
      obtain ⟨p, _, rfl⟩ := List.mem_map.mp hx
      exact knnQueryRecall_le_one eps k p.1 p.2
  · intro eps k trueD runD d hmem hle
    apply List.countP_pos_iff.mpr
    refine ⟨d, hmem, ?_⟩
    unfold correctWithin
    exact decide_eq_true hle

/-- Witness for knn_recall_bounded_and_tie_tolerant: a concrete two-query
record for the bounds, and a returned neighbor at distance 3, strictly
above the 2nd true distance 2 but within the tolerance eps = 1, which is
counted as correct. -/
theorem knn_recall_bounded_and_tie_tolerant_witness :
    (∃ v, computeMetric "k-nn" 1 10 { algorithm := "bruteforce", runDists := [[1, 2], [3]] }
        { trueDists := [[1, 2], [3]] } = some v ∧ 0 ≤ v ∧ v ≤ 1) ∧
    0 < (([3, 4] : List ℚ).take 2).countP (correctWithin 1 2 [1, 2]) :=
  ⟨knn_recall_bounded_and_tie_tolerant.1
      { algorithm := "bruteforce", runDists := [[1, 2], [3]] }
      { trueDists := [[1, 2], [3]] } 1 10 (by decide),
    knn_recall_bounded_and_tie_tolerant.2 1 2 [1, 2] [3, 4] 3 (by norm_num)
      (by norm_num [kthTrueDist])⟩
